import Mathlib

/-!
Verification of the `NodeStorage` credential cache engine of
`@azure/msal-node-extensions` against its specification.

Modelling conventions (shallow embedding of the TypeScript source):

* The flat key-value store (`CacheKVStore`, a plain JS object) is an
  association list with unique keys.  `setKV`, `removeKV` and `lookupKV`
  mirror `cache[key] = value`, `delete cache[key]` and `cache[key]`
  (the last returning `undefined`, i.e. `none`, for an absent key).
* JS truthiness (the source tests `!!cache[key]` in `removeItem` and
  `if (cacheItem)` in `updateCredentialCacheKey`) is `jsTruthy`:
  entity objects are always truthy, plain strings are truthy iff
  nonempty (`ValidCacheType` in msal-common admits plain strings).
* Change notification: `emitChange` runs `changeEmitters.forEach`,
  invoking every registered callback exactly once.  The model records
  one event per `emitChange` call, holding the cache contents visible
  at that moment; with a single registered callback the number of its
  invocations equals `events.length`, and the recorded snapshot is the
  store state the callback observes.
-/

/-- The discriminating kind of a cache entity. -/
inductive EntityKind
  | account
  | idToken
  | accessToken
  | refreshToken
  | appMetadata
  | serverTelemetry
  | throttling
  | authorityMetadata
deriving DecidableEq

/-- Modelled from the spec: a cache entry of a recognized kind is "a tagged
value"; the engine treats it as an opaque payload beyond its tag, and the
per-kind entity classes (`AccountEntity` etc.) live in msal-common, outside
the sources at hand. -/
structure Entity where
  kind : EntityKind
  payload : String
deriving DecidableEq

/-- A value storable in the flat cache: `ValidCacheType` in msal-common is a
union of the entity classes and plain strings. -/
inductive ValidCacheType
  | entity (e : Entity)
  | str (s : String)
deriving DecidableEq

/-- JS truthiness of a cache value: objects are truthy, a string is truthy
iff it is nonempty. -/
def jsTruthy : ValidCacheType → Bool
  | .entity _ => true
  | .str s => !(s.isEmpty)

/-- Cache keys are strings. -/
abbrev Key := String

/-- The flat key-value store (`CacheKVStore`), a JS object modelled as an
association list with unique keys (JS object keys are unique). -/
abbrev CacheKVStore := List (Key × ValidCacheType)

/-- `cache[key]` : first binding of the key, `none` for `undefined`. -/
def lookupKV : CacheKVStore → Key → Option ValidCacheType
  | [], _ => none
  | p :: rest, k => if p.1 = k then some p.2 else lookupKV rest k

/-- `cache[key] = value` : overwrite the existing binding in place, or
append a new binding (JS property-assignment ordering). -/
def setKV : CacheKVStore → Key → ValidCacheType → CacheKVStore
  | [], k, v => [(k, v)]
  | p :: rest, k, v => if p.1 = k then (k, v) :: rest else p :: setKV rest k v

/-- `delete cache[key]` : drop the binding of the key. -/
def removeKV : CacheKVStore → Key → CacheKVStore
  | [], _ => []
  | p :: rest, k => if p.1 = k then rest else p :: removeKV rest k

/-- `Object.keys(cache)`. -/
def keysKV (c : CacheKVStore) : List Key :=
  c.map Prod.fst

/-- Modelled from the spec: the per-kind classifier `isK` (owned by
msal-common, outside the sources at hand) accepts exactly the values
tagged with kind `K` — the spec's tagged-variant data model. -/
def isAccountEntity : ValidCacheType → Bool
  | .entity e => e.kind == .account
  | .str _ => false

/-- Modelled from the spec: classifier for IdToken entities. -/
def isIdTokenEntity : ValidCacheType → Bool
  | .entity e => e.kind == .idToken
  | .str _ => false

/-- Modelled from the spec: classifier for AccessToken entities. -/
def isAccessTokenEntity : ValidCacheType → Bool
  | .entity e => e.kind == .accessToken
  | .str _ => false

/-- Modelled from the spec: classifier for RefreshToken entities. -/
def isRefreshTokenEntity : ValidCacheType → Bool
  | .entity e => e.kind == .refreshToken
  | .str _ => false

/-- Modelled from the spec: classifier for AppMetadata entities. -/
def isAppMetadataEntity : ValidCacheType → Bool
  | .entity e => e.kind == .appMetadata
  | .str _ => false

/-- Modelled from the spec: a credential (`ValidCredentialType` in
msal-common) carries a pure key generator `generateCredentialKey` — the
spec's key-determinism invariant: the canonical key is a pure function of
the entity's identifying fields. -/
structure ValidCredentialType where
  credentialKind : EntityKind
  generateCredentialKey : Key
deriving DecidableEq

/-- The storage engine state: the flat store plus the notification record
(one snapshot per `emitChange` call, in order). -/
structure NodeStorage where
  cache : CacheKVStore
  events : List CacheKVStore
deriving DecidableEq

/-- `emitChange` : invoke every registered callback; recorded as one event
holding the cache the callbacks observe. -/
def NodeStorage.emitChange (s : NodeStorage) : NodeStorage :=
  { s with events := s.events ++ [s.cache] }

/-- `getCache` : return the current flat store. -/
def NodeStorage.getCache (s : NodeStorage) : CacheKVStore :=
  s.cache

/-- `setCache(cache)` : replace the flat store, then `emitChange`. -/
def NodeStorage.setCache (s : NodeStorage) (cache : CacheKVStore) : NodeStorage :=
  NodeStorage.emitChange { s with cache := cache }

/-- `getItem(key)` : read `cache[key]`. -/
def NodeStorage.getItem (s : NodeStorage) (key : Key) : Option ValidCacheType :=
  lookupKV s.getCache key

/-- `setItem(key, value)` : write `cache[key] = value`, then `setCache`. -/
def NodeStorage.setItem (s : NodeStorage) (key : Key) (value : ValidCacheType) : NodeStorage :=
  s.setCache (setKV s.getCache key value)

/-- `getKeys()` : `[...Object.keys(cache)]`. -/
def NodeStorage.getKeys (s : NodeStorage) : List Key :=
  keysKV s.getCache

/-- `containsKey(key)` : `getKeys().includes(key)`. -/
def NodeStorage.containsKey (s : NodeStorage) (key : Key) : Bool :=
  s.getKeys.contains key

/-- `removeItem(key)` : if `!!cache[key]` then `delete cache[key]`,
`setCache(cache)` and a further `emitChange()`; returns whether a deletion
happened. -/
def NodeStorage.removeItem (s : NodeStorage) (key : Key) : Bool × NodeStorage :=
  match lookupKV s.getCache key with
  | some v =>
      if jsTruthy v then
        (true, NodeStorage.emitChange (s.setCache (removeKV s.getCache key)))
      else
        (false, s)
  | none => (false, s)

/-- `clear()` : snapshot `getKeys()`, `removeItem` each of them, then one
final `emitChange()`. -/
def NodeStorage.clear (s : NodeStorage) : NodeStorage :=
  NodeStorage.emitChange
    (s.getKeys.foldl (fun st k => (st.removeItem k).2) s)

/-- Well-formedness of a store state: JS object keys are unique. -/
abbrev NodeStorage.WF (s : NodeStorage) : Prop :=
  (keysKV s.cache).Nodup

/-- `getAccount(accountKey)` : `getItem`, then return the value only if the
Account classifier accepts it, else null. -/
def NodeStorage.getAccount (s : NodeStorage) (accountKey : Key) : Option ValidCacheType :=
  match s.getItem accountKey with
  | some account => if isAccountEntity account then some account else none
  | none => none

/-- `getIdTokenCredential(idTokenKey)` : typed getter for IdToken. -/
def NodeStorage.getIdTokenCredential (s : NodeStorage) (idTokenKey : Key) : Option ValidCacheType :=
  match s.getItem idTokenKey with
  | some idToken => if isIdTokenEntity idToken then some idToken else none
  | none => none

/-- `getAccessTokenCredential(accessTokenKey)` : typed getter for AccessToken. -/
def NodeStorage.getAccessTokenCredential (s : NodeStorage) (accessTokenKey : Key) : Option ValidCacheType :=
  match s.getItem accessTokenKey with
  | some accessToken => if isAccessTokenEntity accessToken then some accessToken else none
  | none => none

/-- `getRefreshTokenCredential(refreshTokenKey)` : typed getter for RefreshToken. -/
def NodeStorage.getRefreshTokenCredential (s : NodeStorage) (refreshTokenKey : Key) : Option ValidCacheType :=
  match s.getItem refreshTokenKey with
  | some refreshToken => if isRefreshTokenEntity refreshToken then some refreshToken else none
  | none => none

/-- `getAppMetadata(appMetadataKey)` : typed getter for AppMetadata. -/
def NodeStorage.getAppMetadata (s : NodeStorage) (appMetadataKey : Key) : Option ValidCacheType :=
  match s.getItem appMetadataKey with
  | some appMetadata => if isAppMetadataEntity appMetadata then some appMetadata else none
  | none => none

/-- The five bucketed kinds, for stating properties uniformly over the
typed getters. -/
inductive BucketKind
  | account
  | idToken
  | accessToken
  | refreshToken
  | appMetadata
deriving DecidableEq

/-- The entity kind a bucketed kind's classifier accepts. -/
def BucketKind.toEntityKind : BucketKind → EntityKind
  | .account => .account
  | .idToken => .idToken
  | .accessToken => .accessToken
  | .refreshToken => .refreshToken
  | .appMetadata => .appMetadata

/-- Dispatch to the typed getter of a bucketed kind. -/
def NodeStorage.getTyped (s : NodeStorage) (bk : BucketKind) (k : Key) : Option ValidCacheType :=
  match bk with
  | .account => s.getAccount k
  | .idToken => s.getIdTokenCredential k
  | .accessToken => s.getAccessTokenCredential k
  | .refreshToken => s.getRefreshTokenCredential k
  | .appMetadata => s.getAppMetadata k

/-- The classifier a bucketed kind's typed getter uses. -/
def classifierOf : BucketKind → ValidCacheType → Bool
  | .account => isAccountEntity
  | .idToken => isIdTokenEntity
  | .accessToken => isAccessTokenEntity
  | .refreshToken => isRefreshTokenEntity
  | .appMetadata => isAppMetadataEntity

/-- `updateCredentialCacheKey(currentCacheKey, credential)` : compute the
canonical key; if it differs, look up the old key and, when the stored item
is truthy, `removeItem` the old key and `setItem` under the new key,
returning the new key; in every other case return the old key unchanged. -/
def NodeStorage.updateCredentialCacheKey (s : NodeStorage) (currentCacheKey : Key)
    (credential : ValidCredentialType) : Key × NodeStorage :=
  let updatedCacheKey := credential.generateCredentialKey
  if currentCacheKey ≠ updatedCacheKey then
    match s.getItem currentCacheKey with
    | some cacheItem =>
        if jsTruthy cacheItem then
          let s1 := (s.removeItem currentCacheKey).2
          (updatedCacheKey, s1.setItem updatedCacheKey cacheItem)
        else
          (currentCacheKey, s)
    | none => (currentCacheKey, s)
  else
    (currentCacheKey, s)

/-- The bucketed in-memory view (`InMemoryCache`). -/
structure InMemoryCache where
  accounts : CacheKVStore
  idTokens : CacheKVStore
  accessTokens : CacheKVStore
  refreshTokens : CacheKVStore
  appMetadata : CacheKVStore
deriving DecidableEq

/-- One step of `cacheToInMemoryCache` : the `instanceof` chain in
precedence order Account, IdToken, AccessToken, RefreshToken, AppMetadata;
the first accepting classifier wins, values accepted by none are skipped. -/
def bucketStep (im : InMemoryCache) (p : Key × ValidCacheType) : InMemoryCache :=
  if isAccountEntity p.2 then { im with accounts := im.accounts ++ [p] }
  else if isIdTokenEntity p.2 then { im with idTokens := im.idTokens ++ [p] }
  else if isAccessTokenEntity p.2 then { im with accessTokens := im.accessTokens ++ [p] }
  else if isRefreshTokenEntity p.2 then { im with refreshTokens := im.refreshTokens ++ [p] }
  else if isAppMetadataEntity p.2 then { im with appMetadata := im.appMetadata ++ [p] }
  else im

/-- `cacheToInMemoryCache(cache)` : classify every flat-store value through
the `instanceof` chain into the five buckets. -/
def cacheToInMemoryCache (cache : CacheKVStore) : InMemoryCache :=
  cache.foldl bucketStep ⟨[], [], [], [], []⟩

/-- `getInMemoryCache()` : the bucketed view of the current flat store.
It only reads: the engine state is not modified. -/
def NodeStorage.getInMemoryCache (s : NodeStorage) : InMemoryCache :=
  cacheToInMemoryCache s.getCache

/-- Object-spread merge `\x7b...target, ...src\x7d` : assign every binding of
`src` over `target`, same-key entries of `src` overwriting. -/
def mergeKV (target : CacheKVStore) (src : CacheKVStore) : CacheKVStore :=
  src.foldl (fun acc p => setKV acc p.1 p.2) target

/-- `inMemoryCacheToCache(inMemoryCache)` : merge the current flat store
with the five buckets in order accounts, idTokens, accessTokens,
refreshTokens, appMetadata (later spreads overwrite). -/
def NodeStorage.inMemoryCacheToCache (s : NodeStorage) (inMemoryCache : InMemoryCache) :
    CacheKVStore :=
  mergeKV (mergeKV (mergeKV (mergeKV (mergeKV s.getCache inMemoryCache.accounts)
    inMemoryCache.idTokens) inMemoryCache.accessTokens) inMemoryCache.refreshTokens)
    inMemoryCache.appMetadata

/-- `setInMemoryCache(inMemoryCache)` : convert, `setCache`, then a further
`emitChange`. -/
def NodeStorage.setInMemoryCache (s : NodeStorage) (inMemoryCache : InMemoryCache) :
    NodeStorage :=
  NodeStorage.emitChange (s.setCache (s.inMemoryCacheToCache inMemoryCache))

/-- Left-biased choice of two optional values: the first bound value wins.
Used to state the last-writer-wins merge of `inMemoryCacheToCache`. -/
def orKV (a b : Option ValidCacheType) : Option ValidCacheType :=
  match a with
  | some v => some v
  | none => b

/-- A sequence of `setItem` calls, applied in order. -/
def setItemSeq (s : NodeStorage) (ops : List (Key × ValidCacheType)) : NodeStorage :=
  ops.foldl (fun st p => st.setItem p.1 p.2) s

/-- Concrete store for the `clear()` example: 5 unrelated keys, all bound
to truthy values. -/
def sFive : NodeStorage :=
  ⟨[("k1", .entity ⟨.account, "a1"⟩),
    ("k2", .entity ⟨.idToken, "t1"⟩),
    ("k3", .entity ⟨.serverTelemetry, "st"⟩),
    ("k4", .str "some-string"),
    ("k5", .entity ⟨.throttling, "th"⟩)], []⟩

/-- Concrete store for the key-repair scenarios: one credential stored
under an outdated key. -/
def sOld : NodeStorage :=
  ⟨[("oldKey", .entity ⟨.idToken, "tok"⟩)], []⟩

/-- A credential whose canonical key differs from `"oldKey"`. -/
def credNew : ValidCredentialType :=
  ⟨.idToken, "newKey"⟩

/-- Concrete store holding a falsy value (the empty string) under a
present key. -/
def sFalsy : NodeStorage :=
  ⟨[("emptyVal", .str "")], []⟩

/-- Concrete store with one falsy-valued binding for the key-repair
counterexample. -/
def sFalsyOld : NodeStorage :=
  ⟨[("oldKey", .str "")], []⟩

/-- Concrete store for the drop-on-unknown example: one Account-shaped
entry and one unrecognized entry. -/
def sMixed : NodeStorage :=
  ⟨[("acct1", .entity ⟨.account, "a"⟩), ("junk1", .str "zzz")], []⟩

/-- Concrete small store used by witnesses. -/
def sSmall : NodeStorage :=
  ⟨[("kA", .entity ⟨.account, "p"⟩), ("kB", .str "vB")], []⟩

/-- Concrete bucketed view used by the merge-order witness. -/
def imSmall : InMemoryCache :=
  ⟨[("kA", .entity ⟨.account, "fresh"⟩)], [("kI", .entity ⟨.idToken, "i"⟩)], [], [], []⟩

theorem lookupKV_setKV_self (c : CacheKVStore) (k : Key) (v : ValidCacheType) :
    lookupKV (setKV c k v) k = some v := by
  induction c with
  | nil => simp [setKV, lookupKV]
  | cons p rest ih =>
      by_cases h : p.1 = k
      · simp [setKV, h, lookupKV]
      · simp [setKV, h, lookupKV, ih]

theorem lookupKV_setKV_ne (c : CacheKVStore) (k k' : Key) (v : ValidCacheType)
    (h : k' ≠ k) : lookupKV (setKV c k v) k' = lookupKV c k' := by
  have hkk : ¬(k = k') := fun hh => h hh.symm
  induction c with
  | nil => simp only [setKV, lookupKV, if_neg hkk]
  | cons p rest ih =>
      by_cases hp : p.1 = k
      · simp only [setKV, if_pos hp, lookupKV, if_neg hkk, hp]
      · simp only [setKV, if_neg hp, lookupKV]
        by_cases hp' : p.1 = k'
        · simp only [if_pos hp']
        · simp only [if_neg hp', ih]

theorem mem_keysKV_setKV (c : CacheKVStore) (k a : Key) (v : ValidCacheType) :
    a ∈ keysKV (setKV c k v) ↔ a ∈ keysKV c ∨ a = k := by
  induction c with
  | nil => simp [setKV, keysKV]
  | cons p rest ih =>
      by_cases h : p.1 = k
      · subst h
        simp [setKV, keysKV]
        tauto
      · simp [setKV, h, keysKV] at ih ⊢
        tauto

theorem lookupKV_removeKV_ne (c : CacheKVStore) (k k' : Key) (h : k' ≠ k) :
    lookupKV (removeKV c k) k' = lookupKV c k' := by
  have hkk : ¬(k = k') := fun hh => h hh.symm
  induction c with
  | nil => simp only [removeKV]
  | cons p rest ih =>
      by_cases hp : p.1 = k
      · have hp' : ¬(p.1 = k') := by rw [hp]; exact hkk
        simp only [removeKV, if_pos hp, lookupKV, if_neg hp']
      · simp only [removeKV, if_neg hp, lookupKV]
        by_cases hp' : p.1 = k'
        · simp only [if_pos hp']
        · simp only [if_neg hp', ih]

theorem not_mem_keysKV_removeKV (c : CacheKVStore) (k : Key)
    (hnd : (keysKV c).Nodup) : k ∉ keysKV (removeKV c k) := by
  induction c with
  | nil => simp [removeKV, keysKV]
  | cons p rest ih =>
      simp [keysKV] at hnd
      by_cases hp : p.1 = k
      · subst hp
        simpa [removeKV, keysKV] using hnd.1
      · simp [removeKV, hp, keysKV]
        exact ⟨fun h' => hp h'.symm, by simpa [keysKV] using ih hnd.2⟩

theorem lookupKV_eq_none_of_not_mem (c : CacheKVStore) (k : Key)
    (h : k ∉ keysKV c) : lookupKV c k = none := by
  induction c with
  | nil => simp [lookupKV]
  | cons p rest ih =>
      simp only [keysKV, List.map_cons, List.mem_cons, not_or] at h
      have hp : ¬(p.1 = k) := fun hh => h.1 hh.symm
      simp only [lookupKV, if_neg hp]
      exact ih (by simpa [keysKV] using h.2)

theorem mem_keysKV_of_lookupKV (c : CacheKVStore) (k : Key) (v : ValidCacheType)
    (h : lookupKV c k = some v) : k ∈ keysKV c := by
  induction c with
  | nil => simp [lookupKV] at h
  | cons p rest ih =>
      by_cases hp : p.1 = k
      · simp [keysKV, hp]
      · simp only [lookupKV, if_neg hp] at h
        simp only [keysKV, List.map_cons, List.mem_cons]
        exact Or.inr (by simpa [keysKV] using ih h)

theorem contains_iff_mem (l : List Key) (a : Key) : l.contains a = true ↔ a ∈ l := by
  simp

theorem containsKey_eq_false_of_not_mem (s : NodeStorage) (k : Key)
    (h : k ∉ keysKV s.cache) : s.containsKey k = false := by
  rw [← Bool.not_eq_true]
  intro hc
  exact h ((contains_iff_mem _ _).mp hc)

theorem setItem_events_length (s : NodeStorage) (k : Key) (v : ValidCacheType) :
    (s.setItem k v).events.length = s.events.length + 1 := by
  simp [NodeStorage.setItem, NodeStorage.setCache, NodeStorage.emitChange]

/-- C3: N consecutive `setItem` calls invoke a single registered callback
exactly N times — one notification per call — and each `setItem` appends
exactly one notification whose observed snapshot is the post-mutation
cache, in which the written binding is already visible. -/
theorem setItem_notification_count :
    (∀ (s : NodeStorage) (ops : List (Key × ValidCacheType)),
        (setItemSeq s ops).events.length = s.events.length + ops.length) ∧
    (∀ (s : NodeStorage) (k : Key) (v : ValidCacheType),
        (s.setItem k v).events = s.events ++ [(s.setItem k v).cache] ∧
        (s.setItem k v).getItem k = some v) := by
  constructor
  · intro s ops
    induction ops generalizing s with
    | nil => simp [setItemSeq]
    | cons p rest ih =>
        have h1 := setItem_events_length s p.1 p.2
        have h2 := ih (s.setItem p.1 p.2)
        simp only [setItemSeq, List.foldl_cons, List.length_cons] at h2 ⊢
        rw [h2, h1]
        omega
  · intro s k v
    refine ⟨rfl, ?_⟩
    simp [NodeStorage.setItem, NodeStorage.setCache, NodeStorage.emitChange,
      NodeStorage.getItem, NodeStorage.getCache, lookupKV_setKV_self]

/-- C4 (amended): `removeItem(k)` returns true iff a truthy value is
stored under `k` (a JS-falsy stored value, like the empty string, is
treated as absent); when it returns false the store and the notification
record are left entirely unchanged, so zero callbacks fire. -/
theorem removeItem_result_spec (s : NodeStorage) (k : Key) :
    ((s.removeItem k).1 = true ↔ ∃ v, s.getItem k = some v ∧ jsTruthy v = true) ∧
    ((s.removeItem k).1 = false → (s.removeItem k).2 = s) := by
  unfold NodeStorage.removeItem NodeStorage.getItem
  cases hv : lookupKV s.getCache k with
  | none => simp [hv]
  | some v0 =>
      by_cases ht : jsTruthy v0
      · simp [hv, ht]
      · simp [hv, ht]

/-- C4 (witness): instantiation at a concrete store and an absent key. -/
theorem removeItem_result_spec_witness :
    ((sSmall.removeItem "absent").1 = true ↔
      ∃ v, sSmall.getItem "absent" = some v ∧ jsTruthy v = true) ∧
    ((sSmall.removeItem "absent").1 = false → (sSmall.removeItem "absent").2 = sSmall) :=
  removeItem_result_spec sSmall "absent"

/-- C4 (counterexample): a key can be present (`containsKey` is true)
while `removeItem` returns false — the source tests `!!cache[key]`, so a
stored falsy value such as the empty string defeats the claimed
"true iff present". -/
theorem removeItem_presence_counterexample :
    sFalsy.containsKey "emptyVal" = true ∧
    (sFalsy.removeItem "emptyVal").1 = false ∧
    (sFalsy.removeItem "emptyVal").2 = sFalsy := by
  decide

/-- C9: `setItem(k, v)` and `removeItem(k)` leave the binding of every
other key unchanged. -/
theorem setItem_removeItem_frame (s : NodeStorage) (k k' : Key) (v : ValidCacheType)
    (h : k' ≠ k) :
    (s.setItem k v).getItem k' = s.getItem k' ∧
    ((s.removeItem k).2).getItem k' = s.getItem k' := by
  constructor
  · simp only [NodeStorage.setItem, NodeStorage.setCache, NodeStorage.emitChange,
      NodeStorage.getItem, NodeStorage.getCache]
    exact lookupKV_setKV_ne _ _ _ _ h
  · unfold NodeStorage.removeItem
    cases hv : lookupKV s.getCache k with
    | none => rfl
    | some v0 =>
        by_cases ht : jsTruthy v0
        · simp only [hv, ht, if_pos]
          simp only [NodeStorage.setCache, NodeStorage.emitChange, NodeStorage.getItem,
            NodeStorage.getCache]
          exact lookupKV_removeKV_ne _ _ _ h
        · simp [hv, ht]

/-- C9 (witness): instantiation at a concrete store and distinct keys. -/
theorem setItem_removeItem_frame_witness :
    ((sSmall.setItem "kB" (.str "x")).getItem "kA" = sSmall.getItem "kA" ∧
     ((sSmall.removeItem "kB").2).getItem "kA" = sSmall.getItem "kA") :=
  setItem_removeItem_frame sSmall "kB" "kA" (.str "x") (by decide)

/-- C10: on a key holding a truthy value, one `removeItem` call fires the
registered callbacks exactly twice — once through the internal `setCache`
and once through the explicit `emitChange` that follows. -/
theorem removeItem_double_notification (s : NodeStorage) (k : Key) (v : ValidCacheType)
    (hv : s.getItem k = some v) (ht : jsTruthy v = true) :
    (s.removeItem k).1 = true ∧
    ((s.removeItem k).2).events.length = s.events.length + 2 := by
  unfold NodeStorage.removeItem
  rw [show lookupKV s.getCache k = some v from hv]
  simp [ht, NodeStorage.setCache, NodeStorage.emitChange]

/-- C10 (witness): instantiation at a concrete store and truthy key. -/
theorem removeItem_double_notification_witness :
    (sSmall.removeItem "kA").1 = true ∧
    ((sSmall.removeItem "kA").2).events.length = sSmall.events.length + 2 :=
  removeItem_double_notification sSmall "kA" (.entity ⟨.account, "p"⟩) (by decide) (by decide)

theorem clearLoop_spec (c : CacheKVStore) (ev : List CacheKVStore)
    (hnd : (keysKV c).Nodup) (htr : ∀ p ∈ c, jsTruthy p.2 = true) :
    ((keysKV c).foldl (fun (st : NodeStorage) k => (st.removeItem k).2)
        (⟨c, ev⟩ : NodeStorage)).cache = [] ∧
    ((keysKV c).foldl (fun (st : NodeStorage) k => (st.removeItem k).2)
        (⟨c, ev⟩ : NodeStorage)).events.length
      = ev.length + 2 * c.length := by
  induction c generalizing ev with
  | nil => simp [keysKV]
  | cons p rest ih =>
      have hkeys : keysKV (p :: rest) = p.1 :: keysKV rest := rfl
      have hnd' : (keysKV rest).Nodup := by
        rw [hkeys] at hnd
        exact (List.nodup_cons.mp hnd).2
      have htrhead : jsTruthy p.2 = true := htr p (List.mem_cons_self p rest)
      have hstep : (NodeStorage.removeItem ⟨p :: rest, ev⟩ p.1).2
          = ⟨rest, (ev ++ [rest]) ++ [rest]⟩ := by
        have hl : lookupKV (NodeStorage.getCache ⟨p :: rest, ev⟩) p.1 = some p.2 := by
          simp [NodeStorage.getCache, lookupKV]
        have hr : removeKV (NodeStorage.getCache ⟨p :: rest, ev⟩) p.1 = rest := by
          simp [NodeStorage.getCache, removeKV]
        unfold NodeStorage.removeItem
        rw [hl]
        simp [htrhead, hr, NodeStorage.setCache, NodeStorage.emitChange]
      rw [hkeys]
      simp only [List.foldl_cons]
      rw [hstep]
      have := ih ((ev ++ [rest]) ++ [rest]) hnd' (fun q hq => htr q (List.mem_cons_of_mem p hq))
      refine ⟨this.1, ?_⟩
      rw [this.2]
      simp [List.length_append]
      omega

/-- C1 (amended): on a store whose present keys all hold truthy values,
`clear()` removes every key — `getKeys()` is empty afterward — but a
single registered callback is invoked 2·n+1 times for n removed keys
(each internal `removeItem` fires twice, plus one final notification
after all removals), not exactly once per `clear()` call. -/
theorem clear_spec (s : NodeStorage) (hW : s.WF)
    (htr : ∀ p ∈ s.cache, jsTruthy p.2 = true) :
    (s.clear).getKeys = [] ∧
    (s.clear).events.length = s.events.length + 2 * s.cache.length + 1 := by
  have h := clearLoop_spec s.cache s.events hW htr
  have h1 : ((s.getKeys).foldl (fun (st : NodeStorage) k => (st.removeItem k).2) s).cache
      = [] := h.1
  have h2 : ((s.getKeys).foldl (fun (st : NodeStorage) k => (st.removeItem k).2) s).events.length
      = s.events.length + 2 * s.cache.length := h.2
  refine ⟨?_, ?_⟩
  · show keysKV (((s.getKeys).foldl (fun (st : NodeStorage) k => (st.removeItem k).2) s).cache)
      = []
    rw [h1]
    rfl
  · show (((s.getKeys).foldl (fun (st : NodeStorage) k => (st.removeItem k).2) s).events
        ++ [((s.getKeys).foldl (fun (st : NodeStorage) k => (st.removeItem k).2) s).cache]).length
      = s.events.length + 2 * s.cache.length + 1
    simp [List.length_append, h2]

/-- C1 (witness): instantiation at a concrete two-key truthy store. -/
theorem clear_spec_witness :
    (sSmall.clear).getKeys = [] ∧
    (sSmall.clear).events.length = sSmall.events.length + 2 * sSmall.cache.length + 1 :=
  clear_spec sSmall (by decide) (by decide)

/-- C1 (counterexample): on the spec's own example — a store with 5
unrelated (truthy) keys and one registered callback — `clear()` does empty
the store, but the callback fires 11 times, not exactly once. -/
theorem clear_single_notification_counterexample :
    (sFive.clear).getKeys = [] ∧
    (sFive.clear).events.length = 11 ∧
    ¬((sFive.clear).events.length = 1) := by
  decide

theorem updateCredentialCacheKey_eq_cases (s : NodeStorage) (k : Key)
    (e : ValidCredentialType) :
    (¬(k ≠ e.generateCredentialKey) → s.updateCredentialCacheKey k e = (k, s)) ∧
    (k ≠ e.generateCredentialKey → s.getItem k = none →
      s.updateCredentialCacheKey k e = (k, s)) ∧
    (∀ v, k ≠ e.generateCredentialKey → s.getItem k = some v → jsTruthy v = false →
      s.updateCredentialCacheKey k e = (k, s)) ∧
    (∀ v, k ≠ e.generateCredentialKey → s.getItem k = some v → jsTruthy v = true →
      s.updateCredentialCacheKey k e
        = (e.generateCredentialKey,
           ((s.removeItem k).2).setItem e.generateCredentialKey v)) := by
  refine ⟨?_, ?_, ?_, ?_⟩
  · intro hk
    simp [NodeStorage.updateCredentialCacheKey, hk]
  · intro hk hv
    simp [NodeStorage.updateCredentialCacheKey, hk, hv]
  · intro v hk hv ht
    simp [NodeStorage.updateCredentialCacheKey, hk, hv, ht]
  · intro v hk hv ht
    simp [NodeStorage.updateCredentialCacheKey, hk, hv, ht]

theorem migrated_cache_eq (s : NodeStorage) (k nk : Key) (v w : ValidCacheType)
    (hv : s.getItem k = some v) (ht : jsTruthy v = true) :
    (((s.removeItem k).2).setItem nk w).cache = setKV (removeKV s.cache k) nk w := by
  unfold NodeStorage.removeItem
  rw [show lookupKV s.getCache k = some v from hv]
  simp [ht, NodeStorage.setItem, NodeStorage.setCache, NodeStorage.emitChange,
    NodeStorage.getCache]

theorem migrated_not_mem (s : NodeStorage) (k nk : Key) (v w : ValidCacheType)
    (hne : k ≠ nk) (hW : s.WF) (hv : s.getItem k = some v) (ht : jsTruthy v = true) :
    k ∉ keysKV ((((s.removeItem k).2).setItem nk w).cache) := by
  rw [migrated_cache_eq s k nk v w hv ht]
  intro hmem
  rcases (mem_keysKV_setKV (removeKV s.cache k) nk k w).mp hmem with h | h
  · exact not_mem_keysKV_removeKV s.cache k hW h
  · exact hne h

theorem migrated_getItem_old (s : NodeStorage) (k nk : Key) (v w : ValidCacheType)
    (hne : k ≠ nk) (hW : s.WF) (hv : s.getItem k = some v) (ht : jsTruthy v = true) :
    (((s.removeItem k).2).setItem nk w).getItem k = none := by
  show lookupKV ((((s.removeItem k).2).setItem nk w).cache) k = none
  apply lookupKV_eq_none_of_not_mem
  exact migrated_not_mem s k nk v w hne hW hv ht

theorem migrated_getItem_new (s : NodeStorage) (k nk : Key) (v w : ValidCacheType)
    (hv : s.getItem k = some v) (ht : jsTruthy v = true) :
    (((s.removeItem k).2).setItem nk w).getItem nk = some w := by
  show lookupKV ((((s.removeItem k).2).setItem nk w).cache) nk = some w
  rw [migrated_cache_eq s k nk v w hv ht]
  exact lookupKV_setKV_self _ _ _

/-- C2 (amended): key repair is idempotent on the store — the second of
two successive `updateCredentialCacheKey(k, e)` calls leaves the store
exactly as the first left it — and whenever the first call's returned key
differs from `k`, `containsKey(k)` is false afterward; however the two
calls then return different keys (the first returns the new key, the
second takes the soft-failure path and returns `k` itself). -/
theorem updateCredentialCacheKey_repair_spec (s : NodeStorage) (k : Key)
    (e : ValidCredentialType) (hW : s.WF) :
    (((s.updateCredentialCacheKey k e).2).updateCredentialCacheKey k e).2
      = (s.updateCredentialCacheKey k e).2 ∧
    ((s.updateCredentialCacheKey k e).1 = k →
      (((s.updateCredentialCacheKey k e).2).updateCredentialCacheKey k e).1 = k) ∧
    ((s.updateCredentialCacheKey k e).1 ≠ k →
      ((s.updateCredentialCacheKey k e).2).containsKey k = false ∧
      (((s.updateCredentialCacheKey k e).2).updateCredentialCacheKey k e).1 = k) := by
  obtain ⟨c1, c2, c3, c4⟩ := updateCredentialCacheKey_eq_cases s k e
  by_cases hk : k ≠ e.generateCredentialKey
  · cases hv : s.getItem k with
    | none =>
        have hu := c2 hk hv
        rw [hu]
        exact ⟨by rw [hu], fun _ => by rw [hu], fun hne => absurd rfl hne⟩
    | some v =>
        by_cases ht : jsTruthy v
        · have hu := c4 v hk hv ht
          have hg : (((s.removeItem k).2).setItem e.generateCredentialKey v).getItem k
              = none := migrated_getItem_old s k e.generateCredentialKey v v hk hW hv ht
          obtain ⟨d1, d2, d3, d4⟩ :=
            updateCredentialCacheKey_eq_cases
              (((s.removeItem k).2).setItem e.generateCredentialKey v) k e
          have hu2 := d2 hk hg
          rw [hu]
          refine ⟨by rw [hu2], ?_, ?_⟩
          · intro habs
            exact absurd habs.symm hk
          · intro _
            refine ⟨?_, by rw [hu2]⟩
            exact containsKey_eq_false_of_not_mem _ k
              (migrated_not_mem s k e.generateCredentialKey v v hk hW hv ht)
        · have hu := c3 v hk hv (by simpa using ht)
          rw [hu]
          exact ⟨by rw [hu], fun _ => by rw [hu], fun hne => absurd rfl hne⟩
  · have hu := c1 hk
    rw [hu]
    exact ⟨by rw [hu], fun _ => by rw [hu], fun hne => absurd rfl hne⟩

/-- C2 (witness): instantiation at a concrete store holding a credential
under an outdated key. -/
theorem updateCredentialCacheKey_repair_spec_witness :
    (((sOld.updateCredentialCacheKey "oldKey" credNew).2).updateCredentialCacheKey
        "oldKey" credNew).2
      = (sOld.updateCredentialCacheKey "oldKey" credNew).2 ∧
    ((sOld.updateCredentialCacheKey "oldKey" credNew).1 = "oldKey" →
      (((sOld.updateCredentialCacheKey "oldKey" credNew).2).updateCredentialCacheKey
          "oldKey" credNew).1 = "oldKey") ∧
    ((sOld.updateCredentialCacheKey "oldKey" credNew).1 ≠ "oldKey" →
      ((sOld.updateCredentialCacheKey "oldKey" credNew).2).containsKey "oldKey" = false ∧
      (((sOld.updateCredentialCacheKey "oldKey" credNew).2).updateCredentialCacheKey
          "oldKey" credNew).1 = "oldKey") :=
  updateCredentialCacheKey_repair_spec sOld "oldKey" credNew (by decide)

/-- C2 (counterexample): calling `updateCredentialCacheKey` twice on the
same arguments does not yield the same resulting key both times — after a
successful migration the first call returns the new key while the second
returns the old key. -/
theorem updateCredentialCacheKey_twice_counterexample :
    (sOld.updateCredentialCacheKey "oldKey" credNew).1 = "newKey" ∧
    (((sOld.updateCredentialCacheKey "oldKey" credNew).2).updateCredentialCacheKey
        "oldKey" credNew).1 = "oldKey" ∧
    ¬((sOld.updateCredentialCacheKey "oldKey" credNew).1
        = (((sOld.updateCredentialCacheKey "oldKey" credNew).2).updateCredentialCacheKey
            "oldKey" credNew).1) := by
  decide

/-- C5 (amended): `updateCredentialCacheKey(oldKey, e)` is a no-op
returning `oldKey` when the canonical key already equals `oldKey`, and
also when no truthy value is stored under `oldKey` (a stored JS-falsy
value, like the empty string, also takes the soft-failure path); when a
truthy value is stored it removes `oldKey`, stores the same value under
the new key and returns the new key. -/
theorem updateCredentialCacheKey_branch_spec (s : NodeStorage) (k : Key)
    (e : ValidCredentialType) (hW : s.WF) :
    (e.generateCredentialKey = k → s.updateCredentialCacheKey k e = (k, s)) ∧
    (e.generateCredentialKey ≠ k → s.getItem k = none →
      s.updateCredentialCacheKey k e = (k, s)) ∧
    (∀ v, e.generateCredentialKey ≠ k → s.getItem k = some v → jsTruthy v = false →
      s.updateCredentialCacheKey k e = (k, s)) ∧
    (∀ v, e.generateCredentialKey ≠ k → s.getItem k = some v → jsTruthy v = true →
      (s.updateCredentialCacheKey k e).1 = e.generateCredentialKey ∧
      ((s.updateCredentialCacheKey k e).2).getItem k = none ∧
      ((s.updateCredentialCacheKey k e).2).getItem e.generateCredentialKey = some v) := by
  obtain ⟨c1, c2, c3, c4⟩ := updateCredentialCacheKey_eq_cases s k e
  refine ⟨?_, ?_, ?_, ?_⟩
  · intro hk
    exact c1 (by simp [hk.symm])
  · intro hk hv
    exact c2 (fun hh => hk hh.symm) hv
  · intro v hk hv ht
    exact c3 v (fun hh => hk hh.symm) hv ht
  · intro v hk hv ht
    have hk' : k ≠ e.generateCredentialKey := fun hh => hk hh.symm
    have hu := c4 v hk' hv ht
    rw [hu]
    exact ⟨rfl,
      migrated_getItem_old s k e.generateCredentialKey v v hk' hW hv ht,
      migrated_getItem_new s k e.generateCredentialKey v v hv ht⟩

/-- C5 (witness): instantiation at a concrete store in the migration
case. -/
theorem updateCredentialCacheKey_branch_spec_witness :
    (credNew.generateCredentialKey = "oldKey" →
      sOld.updateCredentialCacheKey "oldKey" credNew = ("oldKey", sOld)) ∧
    (credNew.generateCredentialKey ≠ "oldKey" → sOld.getItem "oldKey" = none →
      sOld.updateCredentialCacheKey "oldKey" credNew = ("oldKey", sOld)) ∧
    (∀ v, credNew.generateCredentialKey ≠ "oldKey" → sOld.getItem "oldKey" = some v →
      jsTruthy v = false →
      sOld.updateCredentialCacheKey "oldKey" credNew = ("oldKey", sOld)) ∧
    (∀ v, credNew.generateCredentialKey ≠ "oldKey" → sOld.getItem "oldKey" = some v →
      jsTruthy v = true →
      (sOld.updateCredentialCacheKey "oldKey" credNew).1 = credNew.generateCredentialKey ∧
      ((sOld.updateCredentialCacheKey "oldKey" credNew).2).getItem "oldKey" = none ∧
      ((sOld.updateCredentialCacheKey "oldKey" credNew).2).getItem
          credNew.generateCredentialKey = some v) :=
  updateCredentialCacheKey_branch_spec sOld "oldKey" credNew (by decide)

/-- C5 (counterexample): a value is stored under the outdated key (the
empty string), yet `updateCredentialCacheKey` does not migrate it — it
returns the old key and leaves the store unchanged, because the source
tests the looked-up item for JS truthiness, not for presence. -/
theorem updateCredentialCacheKey_falsy_counterexample :
    sFalsyOld.getItem "oldKey" = some (.str "") ∧
    ¬(credNew.generateCredentialKey = "oldKey") ∧
    (sFalsyOld.updateCredentialCacheKey "oldKey" credNew).1 = "oldKey" ∧
    (sFalsyOld.updateCredentialCacheKey "oldKey" credNew).2 = sFalsyOld := by
  decide

theorem foldl_bucketStep (c : CacheKVStore) (im : InMemoryCache) :
    (c.foldl bucketStep im).accounts
        = im.accounts ++ c.filter (fun p => isAccountEntity p.2) ∧
    (c.foldl bucketStep im).idTokens
        = im.idTokens ++ c.filter (fun p => !isAccountEntity p.2 && isIdTokenEntity p.2) ∧
    (c.foldl bucketStep im).accessTokens
        = im.accessTokens ++ c.filter (fun p =>
            !isAccountEntity p.2 && !isIdTokenEntity p.2 && isAccessTokenEntity p.2) ∧
    (c.foldl bucketStep im).refreshTokens
        = im.refreshTokens ++ c.filter (fun p =>
            !isAccountEntity p.2 && !isIdTokenEntity p.2 && !isAccessTokenEntity p.2 &&
            isRefreshTokenEntity p.2) ∧
    (c.foldl bucketStep im).appMetadata
        = im.appMetadata ++ c.filter (fun p =>
            !isAccountEntity p.2 && !isIdTokenEntity p.2 && !isAccessTokenEntity p.2 &&
            !isRefreshTokenEntity p.2 && isAppMetadataEntity p.2) := by
  induction c generalizing im with
  | nil => simp
  | cons p rest ih =>
      obtain ⟨q, v⟩ := p
      cases v with
      | str sv =>
          simp only [List.foldl_cons, List.filter_cons]
          have hb : bucketStep im (q, ValidCacheType.str sv) = im := by
            simp [bucketStep, isAccountEntity, isIdTokenEntity, isAccessTokenEntity,
              isRefreshTokenEntity, isAppMetadataEntity]
          rw [hb]
          simpa [isAccountEntity, isIdTokenEntity, isAccessTokenEntity,
            isRefreshTokenEntity, isAppMetadataEntity] using ih im
      | entity en =>
          obtain ⟨ek, pl⟩ := en
          cases ek <;>
            simp_all [bucketStep, List.filter_cons, isAccountEntity, isIdTokenEntity,
              isAccessTokenEntity, isRefreshTokenEntity, isAppMetadataEntity]

/-- C6: the bucketed-view conversion classifies each flat-store value in
the fixed precedence order Account, IdToken, AccessToken, RefreshToken,
AppMetadata — the first accepting classifier wins — silently excludes
values accepted by none, and only reads the flat store; in particular a
store with one Account-shaped entry and one unrecognized entry yields a
bucketed view containing only the account entry while `getCache` still
holds both. -/
theorem cacheToInMemoryCache_precedence :
    (∀ c : CacheKVStore,
      (cacheToInMemoryCache c).accounts = c.filter (fun p => isAccountEntity p.2) ∧
      (cacheToInMemoryCache c).idTokens
          = c.filter (fun p => !isAccountEntity p.2 && isIdTokenEntity p.2) ∧
      (cacheToInMemoryCache c).accessTokens
          = c.filter (fun p =>
              !isAccountEntity p.2 && !isIdTokenEntity p.2 && isAccessTokenEntity p.2) ∧
      (cacheToInMemoryCache c).refreshTokens
          = c.filter (fun p =>
              !isAccountEntity p.2 && !isIdTokenEntity p.2 && !isAccessTokenEntity p.2 &&
              isRefreshTokenEntity p.2) ∧
      (cacheToInMemoryCache c).appMetadata
          = c.filter (fun p =>
              !isAccountEntity p.2 && !isIdTokenEntity p.2 && !isAccessTokenEntity p.2 &&
              !isRefreshTokenEntity p.2 && isAppMetadataEntity p.2)) ∧
    (sMixed.getInMemoryCache
        = ⟨[("acct1", .entity ⟨.account, "a"⟩)], [], [], [], []⟩ ∧
      sMixed.getCache
        = [("acct1", .entity ⟨.account, "a"⟩), ("junk1", .str "zzz")]) := by
  constructor
  · intro c
    simpa [cacheToInMemoryCache] using foldl_bucketStep c ⟨[], [], [], [], []⟩
  · exact ⟨by decide, by decide⟩

theorem getTyped_eq (s : NodeStorage) (bk : BucketKind) (k : Key) :
    s.getTyped bk k
      = (match s.getItem k with
         | some x => if classifierOf bk x then some x else none
         | none => none) := by
  cases bk <;> rfl

theorem classifierOf_entity (bk : BucketKind) (en : Entity) :
    classifierOf bk (.entity en) = (en.kind == bk.toEntityKind) := by
  cases bk <;> rfl

theorem toEntityKind_injective (k1 k2 : BucketKind) :
    k1.toEntityKind = k2.toEntityKind → k1 = k2 := by
  cases k1 <;> cases k2 <;> decide

theorem getTyped_isSome (s : NodeStorage) (bk : BucketKind) (k : Key) (v : ValidCacheType)
    (h : s.getTyped bk k = some v) :
    ∃ en, s.getItem k = some (.entity en) ∧ en.kind = bk.toEntityKind := by
  rw [getTyped_eq] at h
  cases hv : s.getItem k with
  | none => rw [hv] at h; exact absurd h (by simp)
  | some x =>
      rw [hv] at h
      by_cases hc : classifierOf bk x
      · cases x with
        | str sx =>
            cases bk <;> simp [classifierOf, isAccountEntity, isIdTokenEntity,
              isAccessTokenEntity, isRefreshTokenEntity, isAppMetadataEntity] at hc
        | entity en =>
            refine ⟨en, rfl, ?_⟩
            rw [classifierOf_entity] at hc
            exact eq_of_beq hc
      · simp [hc] at h

/-- C7: type isolation of the typed getters — for any store, key, and two
distinct bucketed kinds, if the first kind's getter returns a non-null
value, the second kind's getter returns null. -/
theorem typed_getter_isolation (s : NodeStorage) (k : Key) (k1 k2 : BucketKind)
    (hne : k1 ≠ k2) (h1 : (s.getTyped k1 k).isSome = true) :
    s.getTyped k2 k = none := by
  obtain ⟨v, hv⟩ := Option.isSome_iff_exists.mp h1
  obtain ⟨en, hitem, hkind⟩ := getTyped_isSome s k1 k v hv
  rw [getTyped_eq, hitem]
  have hcf : classifierOf k2 (.entity en) = false := by
    rw [classifierOf_entity]
    have : en.kind ≠ k2.toEntityKind := by
      rw [hkind]
      intro hh
      exact hne (toEntityKind_injective k1 k2 hh)
    exact beq_eq_false_iff_ne.mpr this
  simp [hcf]

/-- C7 (witness): instantiation at a concrete store holding an account
entity, with the Account and IdToken getters. -/
theorem typed_getter_isolation_witness :
    sSmall.getTyped .idToken "kA" = none :=
  typed_getter_isolation sSmall "kA" .account .idToken (by decide) (by decide)

theorem lookupKV_mergeKV (target src : CacheKVStore) (k : Key)
    (hnd : (keysKV src).Nodup) :
    lookupKV (mergeKV target src) k = orKV (lookupKV src k) (lookupKV target k) := by
  induction src generalizing target with
  | nil => simp [mergeKV, lookupKV, orKV]
  | cons p rest ih =>
      have hcons : (keysKV (p :: rest)) = p.1 :: keysKV rest := rfl
      rw [hcons] at hnd
      have hnd' : (keysKV rest).Nodup := (List.nodup_cons.mp hnd).2
      have hm : mergeKV target (p :: rest) = mergeKV (setKV target p.1 p.2) rest := rfl
      rw [hm, ih _ hnd']
      by_cases hk : p.1 = k
      · subst hk
        have hnone : lookupKV rest p.1 = none :=
          lookupKV_eq_none_of_not_mem rest p.1 (List.nodup_cons.mp hnd).1
        rw [hnone]
        simp [lookupKV, orKV, lookupKV_setKV_self]
      · rw [lookupKV_setKV_ne target p.1 k p.2 (fun hh => hk hh.symm)]
        simp [lookupKV, hk]

/-- C8: the flat-store conversion merges the current flat store with the
five buckets in the order accounts, idTokens, accessTokens, refreshTokens,
appMetadata — for any key, the binding of the last source in that order
that contains it wins (bucket entries overwrite same-key flat entries). -/
theorem inMemoryCacheToCache_merge_order (s : NodeStorage) (im : InMemoryCache) (k : Key)
    (h1 : (keysKV im.accounts).Nodup) (h2 : (keysKV im.idTokens).Nodup)
    (h3 : (keysKV im.accessTokens).Nodup) (h4 : (keysKV im.refreshTokens).Nodup)
    (h5 : (keysKV im.appMetadata).Nodup) :
    lookupKV (s.inMemoryCacheToCache im) k =
      orKV (lookupKV im.appMetadata k)
        (orKV (lookupKV im.refreshTokens k)
          (orKV (lookupKV im.accessTokens k)
            (orKV (lookupKV im.idTokens k)
              (orKV (lookupKV im.accounts k) (lookupKV s.getCache k))))) := by
  unfold NodeStorage.inMemoryCacheToCache
  rw [lookupKV_mergeKV _ _ _ h5, lookupKV_mergeKV _ _ _ h4, lookupKV_mergeKV _ _ _ h3,
    lookupKV_mergeKV _ _ _ h2, lookupKV_mergeKV _ _ _ h1]

/-- C8 (witness): instantiation at a concrete store and bucketed view in
which a bucket entry overwrites a same-key flat entry. -/
theorem inMemoryCacheToCache_merge_order_witness :
    lookupKV (sSmall.inMemoryCacheToCache imSmall) "kA" =
      orKV (lookupKV imSmall.appMetadata "kA")
        (orKV (lookupKV imSmall.refreshTokens "kA")
          (orKV (lookupKV imSmall.accessTokens "kA")
            (orKV (lookupKV imSmall.idTokens "kA")
              (orKV (lookupKV imSmall.accounts "kA") (lookupKV sSmall.getCache "kA"))))) :=
  inMemoryCacheToCache_merge_order sSmall imSmall "kA"
    (by decide) (by decide) (by decide) (by decide) (by decide)
